import Mathlib

/-!
Shallow embedding of the audio playback engine of the midah soundboard
(`src-tauri/src/audio/engine.rs`, `source.rs`, `manager.rs`).

Rust `f32` values are modelled as exact rationals (`ℚ`); `HashMap<String, _>`
is modelled as an association list with key-unique insertion.  `rodio::Sink`
is modelled by the observable state the engine reads and writes: its current
volume, whether its queue is empty (`sink.empty()`), and whether it was
stopped.  The `_streams` vector of `SoundInstance` exists only to keep OS
handles alive and carries no observable state, so it is omitted.
-/

namespace Midah

/-! ### Association-list model of `HashMap<String, α>` -/

def getKey {α : Type} (l : List (String × α)) (k : String) : Option α :=
  match l with
  | [] => none
  | p :: rest => if p.1 = k then some p.2 else getKey rest k

def removeKey {α : Type} (k : String) (l : List (String × α)) : List (String × α) :=
  l.filter (fun p => p.1 ≠ k)

/-- `HashMap::insert`: the key maps to the new value and to nothing else. -/
def insertKey {α : Type} (k : String) (v : α) (l : List (String × α)) :
    List (String × α) :=
  removeKey k l ++ [(k, v)]

/-- `HashMap::get_mut` followed by an in-place mutation. -/
def updateKey {α : Type} (k : String) (f : α → α) (l : List (String × α)) :
    List (String × α) :=
  l.map (fun p => if p.1 = k then (p.1, f p.2) else p)

def keysOf {α : Type} (l : List (String × α)) : List String :=
  l.map Prod.fst

/-! ### `combine_volume` (engine.rs:16) -/

def combine_volume (volume1 volume2 : ℚ) : ℚ :=
  max volume1 0 * max volume2 0

/-! ### `rodio::Sink` as observed by the engine -/

structure Sink where
  volume : ℚ
  empty : Bool
  stopped : Bool
deriving DecidableEq

/-- `rodio::Sink::try_new`: fresh sink, volume `1.0`, nothing queued. -/
def Sink.new : Sink := { volume := 1, empty := true, stopped := false }

def Sink.set_volume (s : Sink) (v : ℚ) : Sink := { s with volume := v }

/-- `sink.append(..)`: the queue becomes non-empty. -/
def Sink.append (s : Sink) : Sink := { s with empty := false }

/-- `sink.stop()`: halts the sink and discards its queued audio. -/
def Sink.stop (s : Sink) : Sink := { s with empty := true, stopped := true }

/-- Audio draining to completion on the device (outside engine control). -/
def Sink.drain (s : Sink) : Sink := { s with empty := true }

/-! ### `SoundInstance` (engine.rs:53) -/

structure SoundInstance where
  sinks : List Sink
  device_volumes : List ℚ
  sound_volume : ℚ
deriving DecidableEq

/-- The loop body of `SoundInstance::apply_volume_updates` (engine.rs:75):
`for (i, sink) in sinks`, set the sink's volume to
`combine_volume(device_volumes.get(i).unwrap_or(&1.0), sound_volume)`.
The counter `i` starts at `j`. -/
def applySinkVolumes (device_volumes : List ℚ) (sound_volume : ℚ) :
    Nat → List Sink → List Sink
  | _, [] => []
  | j, s :: rest =>
      s.set_volume (combine_volume (device_volumes.getD j 1) sound_volume) ::
        applySinkVolumes device_volumes sound_volume (j + 1) rest

def SoundInstance.apply_volume_updates (inst : SoundInstance) : SoundInstance :=
  { inst with sinks := applySinkVolumes inst.device_volumes inst.sound_volume 0 inst.sinks }

def SoundInstance.update_sound_volume (inst : SoundInstance) (new_volume : ℚ) :
    SoundInstance :=
  SoundInstance.apply_volume_updates { inst with sound_volume := new_volume }

/-- The loop body of `SoundInstance::update_device_volumes` (engine.rs:88):
entry `i` becomes the virtual volume when `i == 0 && device_count > 1`, the
output volume when `i == 1 || device_count == 1`, and is untouched otherwise.
`n` is `device_count`; the counter `i` starts at `j`. -/
def assignDeviceVolumes (n : Nat) (virtual_volume output_volume : ℚ) :
    Nat → List ℚ → List ℚ
  | _, [] => []
  | j, v :: rest =>
      (if j = 0 ∧ 1 < n then virtual_volume
       else if j = 1 ∨ n = 1 then output_volume
       else v) :: assignDeviceVolumes n virtual_volume output_volume (j + 1) rest

def SoundInstance.update_device_volumes (inst : SoundInstance)
    (virtual_volume output_volume : ℚ) : SoundInstance :=
  SoundInstance.apply_volume_updates
    { inst with
      device_volumes :=
        assignDeviceVolumes inst.device_volumes.length virtual_volume output_volume
          0 inst.device_volumes }

def SoundInstance.is_finished (inst : SoundInstance) : Bool :=
  inst.sinks.all (fun s => s.empty)

def SoundInstance.stop (inst : SoundInstance) : SoundInstance :=
  { inst with sinks := inst.sinks.map Sink.stop }

/-! ### Device configuration (`AudioManager`, manager.rs) and the play-time
environment.  Devices are identified by name; whether
`rodio::OutputStream::try_from_device` / `Sink::try_new` succeeds for a given
device (`none` = the system default device) is an oracle supplied by the
environment, as is the outcome of opening the decoder for a given file. -/

structure AudioManagerState where
  virtual_device : Option String
  output_device : Option String
  virtual_volume : ℚ
  output_volume : ℚ

/-- `AudioManager::set_virtual_volume` (manager.rs:130): clamps to `[0,1]`. -/
def AudioManagerState.set_virtual_volume (m : AudioManagerState) (volume : ℚ) :
    AudioManagerState :=
  { m with virtual_volume := min 1 (max 0 volume) }

/-- `AudioManager::set_output_volume` (manager.rs:139): clamps to `[0,1]`. -/
def AudioManagerState.set_output_volume (m : AudioManagerState) (volume : ℚ) :
    AudioManagerState :=
  { m with output_volume := min 1 (max 0 volume) }

/-- Environment of one worker-loop iteration: the manager state, the
stream-construction oracle, the decoder-open oracle
(`file_path ↦ none` when `SymphoniaAudioSource::new` fails, otherwise
`some total_duration?`), the current wall-clock time, and which sounds'
sinks have drained since the previous iteration. -/
structure StepEnv where
  manager : AudioManagerState
  stream_ok : Option String → Bool
  decode : String → Option (Option ℚ)
  now : ℚ
  drained : String → Bool

/-- `create_stream_and_sink` (engine.rs:111): `some` fresh sink on success. -/
def create_stream_and_sink (stream_ok : Option String → Bool)
    (device : Option String) (_sound_id : String) : Option Sink :=
  if stream_ok device then some Sink.new else none

/-- `try_add_device_stream` (engine.rs:124): pushes the new sink on success,
logs and leaves the vector unchanged on failure. -/
def try_add_device_stream (stream_ok : Option String → Bool)
    (device : Option String) (sound_id : String) (new_sinks : List Sink) :
    List Sink :=
  match create_stream_and_sink stream_ok device sound_id with
  | some sink => new_sinks ++ [sink]
  | none => new_sinks

/-- `setup_devices_for_playback` (engine.rs:140): returns
`(new_sinks, device_volumes)`.  Note that the device-volume pushes at
engine.rs:160 and engine.rs:165 happen whenever the device is configured,
regardless of whether its sink construction succeeded. -/
def setup_devices_for_playback (m : AudioManagerState)
    (stream_ok : Option String → Bool) (sound_id : String) (local_only : Bool) :
    List Sink × List ℚ :=
  if local_only then
    (try_add_device_stream stream_ok none sound_id [], [1])
  else
    let step_v : List Sink × List ℚ :=
      match m.virtual_device with
      | some d => (try_add_device_stream stream_ok (some d) sound_id [],
                   [m.virtual_volume])
      | none => ([], [])
    let step_o : List Sink × List ℚ :=
      match m.output_device with
      | some d => (try_add_device_stream stream_ok (some d) sound_id step_v.1,
                   step_v.2 ++ [m.output_volume])
      | none => step_v
    if step_o.1.isEmpty then
      (try_add_device_stream stream_ok none sound_id step_o.1, step_o.2 ++ [1])
    else
      step_o

/-! ### Engine state and the play handler (engine.rs:177) -/

/-- A Playback Position Record: `(Instant::now(), duration, start_position)`
as inserted at engine.rs:224. -/
structure PosRecord where
  start_time : ℚ
  duration : ℚ
  start_position : ℚ
deriving DecidableEq

structure EngineState where
  sound_instances : List (String × SoundInstance)
  playing : List (String × PosRecord)
deriving DecidableEq

def initState : EngineState := ⟨[], []⟩

/-- engine.rs:186-188: `sound_instances.remove(sound_id)` followed by
`existing_instance.stop()`.  Returns the table after removal together with
the stopped old instance, if there was one. -/
def playRemoveExisting (sound_id : String)
    (sound_instances : List (String × SoundInstance)) :
    List (String × SoundInstance) × Option SoundInstance :=
  match getKey sound_instances sound_id with
  | some existing_instance =>
      (removeKey sound_id sound_instances, some existing_instance.stop)
  | none => (sound_instances, none)

/-- The sink loop of `handle_play_command` (engine.rs:209-214): each sink gets
volume `combine_volume(device_volumes.get(i).unwrap_or(&1.0), sound_volume)`
and has the buffered source appended; counter starts at `j`. -/
def playPrepareSinks (device_volumes : List ℚ) (sound_volume : ℚ) :
    Nat → List Sink → List Sink
  | _, [] => []
  | j, s :: rest =>
      (s.set_volume (combine_volume (device_volumes.getD j 1) sound_volume)).append ::
        playPrepareSinks device_volumes sound_volume (j + 1) rest

/-- `handle_play_command` (engine.rs:177-226). -/
def handle_play_command (env : StepEnv) (file_path sound_id : String)
    (start_position : Option ℚ) (sound_volume : ℚ) (local_only : Bool)
    (st : EngineState) : EngineState :=
  let removed := playRemoveExisting sound_id st.sound_instances
  let setup := setup_devices_for_playback env.manager env.stream_ok sound_id local_only
  let source_result := env.decode file_path
  let duration : ℚ :=
    match source_result with
    | some total_duration => total_duration.getD 0
    | none => 0
  let used_start_position := start_position.getD 0
  match source_result with
  | none =>
      -- engine.rs:203-206: decoder failure, `return` before any insertion
      { st with sound_instances := removed.1 }
  | some _ =>
      let new_instance : SoundInstance :=
        { sinks := playPrepareSinks setup.2 sound_volume 0 setup.1
          device_volumes := setup.2
          sound_volume := sound_volume }
      { sound_instances := insertKey sound_id new_instance removed.1
        playing := insertKey sound_id
          ⟨env.now, duration, used_start_position⟩ st.playing }

/-- `cleanup_finished_sounds` (engine.rs:228). -/
def cleanup_finished_sounds (st : EngineState) : EngineState :=
  let to_remove :=
    (st.sound_instances.filter (fun p => p.2.is_finished)).map Prod.fst
  { sound_instances := to_remove.foldl (fun t id => removeKey id t) st.sound_instances
    playing := to_remove.foldl (fun t id => removeKey id t) st.playing }

/-! ### Commands and the worker loop (engine.rs:246) -/

inductive AudioCommand where
  | play (file_path sound_id : String) (start_position : Option ℚ)
      (sound_volume : ℚ) (local_only : Bool)
  | stop (sound_id : String)
  | stopAll
  | updateSoundVolume (sound_id : String) (sound_volume : ℚ)
  | updateDeviceVolumes
  | shutdown

/-- The body of one `match cmd` arm in `audio_thread_worker`
(engine.rs:256-302), before the end-of-loop cleanup sweep. -/
def process_command (env : StepEnv) (cmd : AudioCommand) (st : EngineState) :
    EngineState :=
  match cmd with
  | .play file_path sound_id start_position sound_volume local_only =>
      handle_play_command env file_path sound_id start_position sound_volume
        local_only st
  | .stop sound_id =>
      -- the removed instance, if any, is stopped (a side effect on the
      -- dropped value) and both tables lose the key
      ⟨removeKey sound_id st.sound_instances, removeKey sound_id st.playing⟩
  | .stopAll => ⟨[], []⟩
  | .updateSoundVolume sound_id sound_volume =>
      { st with sound_instances :=
          (updateKey sound_id (fun i => i.update_sound_volume sound_volume)
            st.sound_instances) }
  | .updateDeviceVolumes =>
      { st with sound_instances :=
          st.sound_instances.map (fun p =>
            (p.1, p.2.update_device_volumes env.manager.virtual_volume
                    env.manager.output_volume)) }
  | .shutdown => ⟨[], []⟩

/-- Sinks of sounds that drained on the device while the worker was waiting
for the next command become empty. -/
def applyDrain (drained : String → Bool) (st : EngineState) : EngineState :=
  { st with sound_instances :=
      st.sound_instances.map (fun p =>
        if drained p.1 then (p.1, { p.2 with sinks := p.2.sinks.map Sink.drain })
        else p) }

/-- `audio_thread_worker` (engine.rs:246-311) over a finite command trace:
each iteration observes device-side draining, processes one command, and runs
the cleanup sweep — except `Shutdown`, which `break`s before the sweep and
leaves the remaining commands undelivered. -/
def audio_thread_worker : List (StepEnv × AudioCommand) → EngineState → EngineState
  | [], st => st
  | (env, cmd) :: rest, st =>
      let st0 := applyDrain env.drained st
      match cmd with
      | .shutdown => process_command env .shutdown st0
      | c => audio_thread_worker rest (cleanup_finished_sounds (process_command env c st0))

/-- `AudioEngine::get_playback_position` (engine.rs:339):
`elapsed = now - start_time`; returns `start_position + elapsed` only while
`elapsed < duration || duration == 0.0`. -/
def get_playback_position (playing : List (String × PosRecord)) (now : ℚ)
    (sound_id : String) : Option ℚ :=
  match getKey playing sound_id with
  | some r =>
      let elapsed := now - r.start_time
      if elapsed < r.duration ∨ r.duration = 0 then
        some (r.start_position + elapsed)
      else
        none
  | none => none

/-! ### `SymphoniaAudioSource::decode_and_buffer` (source.rs:94)

A decoded symphonia buffer is a frame count together with per-channel sample
planes; `buf.chan(ch)[frame]` is modelled as `(chans.getD ch []).getD frame 0`
(the Rust code indexes within bounds for well-formed decoder output).
Sample values of width-`w` integer formats are `ℤ`; `f32` planes are `ℚ`. -/

inductive AudioBufferRef where
  | f32 (frames : Nat) (chans : List (List ℚ))
  | s16 (frames : Nat) (chans : List (List ℤ))
  | s24 (frames : Nat) (chans : List (List ℤ))
  | s32 (frames : Nat) (chans : List (List ℤ))
  | u8 (frames : Nat) (chans : List (List ℤ))
  | unsupported

/-- The interleaving double loop `for frame in 0..frames { for ch in
0..channels { push (sample ch frame) } }`, peeled from the last frame. -/
def interleave (channels : Nat) (sample : Nat → Nat → ℚ) : Nat → List ℚ
  | 0 => []
  | frames + 1 =>
      interleave channels sample frames ++
        (List.range channels).map (fun ch => sample ch frames)

def intSample (chans : List (List ℤ)) (ch frame : Nat) : ℤ :=
  (chans.getD ch []).getD frame 0

def ratSample (chans : List (List ℚ)) (ch frame : Nat) : ℚ :=
  (chans.getD ch []).getD frame 0

def decode_and_buffer (decoded : AudioBufferRef) (channels : Nat) :
    Option (List ℚ) :=
  match decoded with
  | .f32 frames chans =>
      some (interleave channels (fun ch frame => ratSample chans ch frame) frames)
  | .s16 frames chans =>
      some (interleave channels
        (fun ch frame => (intSample chans ch frame : ℚ) / 32767) frames)
  | .s24 frames chans =>
      some (interleave channels
        (fun ch frame => (intSample chans ch frame : ℚ) / 8388608) frames)
  | .s32 frames chans =>
      some (interleave channels
        (fun ch frame => (intSample chans ch frame : ℚ) / 2147483647) frames)
  | .u8 frames chans =>
      some (interleave channels
        (fun ch frame => ((intSample chans ch frame : ℚ) - 128) / 128) frames)
  | .unsupported => none

/-! ### Loopback mixer render step, `fill_output_from_buffer` (manager.rs:444) -/

/-- One frame's worth of input samples: `in_ch` sequential `pop_front`s with
`0.0` substituted on underrun, and the remaining ring buffer. -/
def popFrame (in_ch : Nat) (buffer : List ℚ) : List ℚ × List ℚ :=
  ((List.range in_ch).map (fun c => buffer.getD c 0), buffer.drop in_ch)

/-- The channel-remap expression of manager.rs:454-457. -/
def remapChannel (in_ch out_ch : Nat) (inputs : List ℚ) (c : Nat) : ℚ :=
  if in_ch = 0 then 0
  else if in_ch = out_ch then inputs.getD c 0
  else if in_ch = 1 then inputs.getD 0 0
  else if out_ch = 1 then inputs.sum / in_ch
  else if c < in_ch then inputs.getD c 0
  else (inputs.take 2).sum / 2

/-- Rust `f32::clamp(x, -1.0, 1.0)`. -/
def clampSample (x : ℚ) : ℚ := min 1 (max (-1) x)

/-- The frame loop of `fill_output_from_buffer`: emits `frames` output frames
of `out_ch` samples each and returns them with the leftover buffer. -/
def fillFrames (in_ch out_ch : Nat) (vol : ℚ) :
    Nat → List ℚ → List ℚ × List ℚ
  | 0, buffer => ([], buffer)
  | n + 1, buffer =>
      let popped := popFrame in_ch buffer
      let frameOut := (List.range out_ch).map
        (fun c => clampSample (remapChannel in_ch out_ch popped.1 c * vol))
      let rest := fillFrames in_ch out_ch vol n popped.2
      (frameOut ++ rest.1, rest.2)

/-- `fill_output_from_buffer` (manager.rs:444): writes `data.len() / out_ch`
frames into `data` (the tail beyond `frames * out_ch` is untouched) and
consumes the popped samples from the ring buffer. -/
def fill_output_from_buffer (data buffer : List ℚ) (in_ch out_ch : Nat)
    (vol : ℚ) : List ℚ × List ℚ :=
  let frames := data.length / out_ch
  let filled := fillFrames in_ch out_ch vol frames buffer
  (filled.1 ++ data.drop (frames * out_ch), filled.2)

/-! ### Spec-side definitions (written from the specification's words, for
refinement claims only) -/

/-- Modelled from the spec: the render-callback channel-remap policy as §4.5
words it — "same count → passthrough; mono input → duplicated to all output
channels; many-to-one → averaged; otherwise → first N channels copied
directly and any remaining output channels filled with the average of the
first two input channels". -/
def remapChannelSpec (in_ch out_ch : Nat) (inputs : List ℚ) (c : Nat) : ℚ :=
  if in_ch = out_ch then inputs.getD c 0
  else if in_ch = 1 then inputs.getD 0 0
  else if out_ch = 1 then inputs.sum / in_ch
  else if c < in_ch then inputs.getD c 0
  else (inputs.take 2).sum / 2

/-- Modelled from the spec: the whole render step as §4.5 words it — per
output frame, pop one input frame (zero on underrun), remap, scale by the
composed gain, clamp to `[-1, 1]`. -/
def fillFramesSpec (in_ch out_ch : Nat) (vol : ℚ) :
    Nat → List ℚ → List ℚ × List ℚ
  | 0, buffer => ([], buffer)
  | n + 1, buffer =>
      let popped := popFrame in_ch buffer
      let frameOut := (List.range out_ch).map
        (fun c => clampSample (remapChannelSpec in_ch out_ch popped.1 c * vol))
      let rest := fillFramesSpec in_ch out_ch vol n popped.2
      (frameOut ++ rest.1, rest.2)

def fill_output_spec (data buffer : List ℚ) (in_ch out_ch : Nat)
    (vol : ℚ) : List ℚ × List ℚ :=
  let frames := data.length / out_ch
  let filled := fillFramesSpec in_ch out_ch vol frames buffer
  (filled.1 ++ data.drop (frames * out_ch), filled.2)

/-- The device-gain entries pushed for the configured devices in the
non-local branch of `setup_devices_for_playback` (engine.rs:160, 165) —
pushed whether or not the device's stream construction succeeded. -/
def configured_device_volumes (m : AudioManagerState) : List ℚ :=
  (match m.virtual_device with
   | some _ => [m.virtual_volume]
   | none => []) ++
  (match m.output_device with
   | some _ => [m.output_volume]
   | none => [])

/-- How many of the configured devices yield a working stream+sink. -/
def produced_sink_count (m : AudioManagerState)
    (stream_ok : Option String → Bool) : Nat :=
  (match m.virtual_device with
   | some d => if stream_ok (some d) then 1 else 0
   | none => 0) +
  (match m.output_device with
   | some d => if stream_ok (some d) then 1 else 0
   | none => 0)

/-! ### Concrete environments used by witnesses and counterexamples -/

/-- Both devices unconfigured, default stream works, every decode succeeds
with 8 s of remaining audio. -/
def envAllOk : StepEnv :=
  { manager := { virtual_device := none, output_device := none,
                 virtual_volume := 1, output_volume := 1 }
    stream_ok := fun _ => true
    decode := fun _ => some (some 8)
    now := 0
    drained := fun _ => false }

/-- Like `envAllOk` but every decoder open fails. -/
def envDecodeFail : StepEnv := { envAllOk with decode := fun _ => none }

/-- Virtual device "V" configured but its stream construction fails; output
device "O" configured and working; gains 0.5 / 0.9. -/
def envVirtualFails : StepEnv :=
  { manager := { virtual_device := some "V", output_device := some "O",
                 virtual_volume := 1/2, output_volume := 9/10 }
    stream_ok := fun d => d ≠ some "V"
    decode := fun _ => some (some 8)
    now := 0
    drained := fun _ => false }

/-- Virtual device "V" configured but failing, no output device configured,
default stream works; virtual gain 0.5. -/
def envOnlyFallback : StepEnv :=
  { manager := { virtual_device := some "V", output_device := none,
                 virtual_volume := 1/2, output_volume := 9/10 }
    stream_ok := fun d => d ≠ some "V"
    decode := fun _ => some (some 8)
    now := 0
    drained := fun _ => false }

/-- Scenario B environment: both devices configured and working,
virtual gain 0.5, output gain 0.8. -/
def envScenarioB : StepEnv :=
  { manager := { virtual_device := some "V", output_device := some "O",
                 virtual_volume := 1/2, output_volume := 4/5 }
    stream_ok := fun _ => true
    decode := fun _ => some (some 8)
    now := 0
    drained := fun _ => false }

end Midah

/-! # Theorems -/

namespace Midah

/-! ### Association-list lemmas -/

theorem getKey_append {α : Type} (l1 l2 : List (String × α)) (k : String) :
    getKey (l1 ++ l2) k =
      match getKey l1 k with
      | some v => some v
      | none => getKey l2 k := by
  induction l1 with
  | nil => rfl
  | cons p rest ih =>
      by_cases h : p.1 = k <;> simp [getKey, h, ih]

theorem getKey_removeKey_self {α : Type} (k : String) (l : List (String × α)) :
    getKey (removeKey k l) k = none := by
  induction l with
  | nil => rfl
  | cons p rest ih =>
      by_cases h : p.1 = k
      · simp only [removeKey, List.filter_cons, h] at ih ⊢
        simpa using ih
      · simp only [removeKey, List.filter_cons, h] at ih ⊢
        simpa [getKey, h] using ih

theorem getKey_insertKey {α : Type} (k : String) (v : α)
    (l : List (String × α)) : getKey (insertKey k v l) k = some v := by
  rw [insertKey, getKey_append, getKey_removeKey_self]
  simp [getKey]

theorem keysOf_removeKey {α : Type} (k : String) (l : List (String × α)) :
    keysOf (removeKey k l) = (keysOf l).filter (fun x => x ≠ k) := by
  induction l with
  | nil => rfl
  | cons p rest ih =>
      by_cases h : p.1 = k
      · simp only [removeKey, keysOf, List.filter_cons, h, List.map_cons] at ih ⊢
        simpa using ih
      · simp only [removeKey, keysOf, List.filter_cons, h, List.map_cons] at ih ⊢
        simpa [h] using ih

theorem keysOf_insertKey {α : Type} (k : String) (v : α)
    (l : List (String × α)) :
    keysOf (insertKey k v l) = keysOf (removeKey k l) ++ [k] := by
  simp [insertKey, keysOf]

theorem keysOf_map_fst_eq {α : Type} (g : String × α → String × α)
    (hg : ∀ p, (g p).1 = p.1) (l : List (String × α)) :
    keysOf (l.map g) = keysOf l := by
  induction l with
  | nil => rfl
  | cons p rest ih => simp [keysOf, hg]

theorem keysOf_updateKey {α : Type} (k : String) (f : α → α)
    (l : List (String × α)) : keysOf (updateKey k f l) = keysOf l := by
  refine keysOf_map_fst_eq _ (fun p => ?_) l
  by_cases h : p.1 = k <;> simp [h]

theorem mem_keysOf_removeKey {α : Type} {x k : String}
    {l : List (String × α)} :
    x ∈ keysOf (removeKey k l) ↔ x ∈ keysOf l ∧ x ≠ k := by
  rw [keysOf_removeKey]
  simp [List.mem_filter]

theorem nodup_keysOf_removeKey {α : Type} (k : String)
    {l : List (String × α)} (h : (keysOf l).Nodup) :
    (keysOf (removeKey k l)).Nodup := by
  rw [keysOf_removeKey]; exact h.filter _

theorem nodup_keysOf_insertKey {α : Type} (k : String) (v : α)
    {l : List (String × α)} (h : (keysOf l).Nodup) :
    (keysOf (insertKey k v l)).Nodup := by
  rw [keysOf_insertKey, List.nodup_append]
  refine ⟨nodup_keysOf_removeKey k h, List.nodup_singleton k, ?_⟩
  intro x hx hx1
  rw [List.mem_singleton] at hx1
  exact ((mem_keysOf_removeKey.mp hx).2) hx1

theorem removeKey_removeKey {α : Type} (k : String) (l : List (String × α)) :
    removeKey k (removeKey k l) = removeKey k l := by
  induction l with
  | nil => rfl
  | cons p rest ih =>
      by_cases h : p.1 = k
      · simp only [removeKey, List.filter_cons, h] at ih ⊢
        simp only [decide_not, decide_eq_true_eq] at ih ⊢
        exact ih
      · simp only [removeKey, List.filter_cons, h] at ih ⊢
        simp [h, ih]

/-- Key set of the repeated-removal fold in `cleanup_finished_sounds`. -/
theorem mem_keysOf_foldl_removeKey {α : Type} (R : List String)
    (l : List (String × α)) (x : String) :
    x ∈ keysOf (R.foldl (fun t id => removeKey id t) l) ↔
      x ∈ keysOf l ∧ x ∉ R := by
  induction R generalizing l with
  | nil => simp
  | cons r R ih =>
      rw [List.foldl_cons, ih, mem_keysOf_removeKey]
      constructor
      · rintro ⟨⟨hx, hr⟩, hR⟩
        exact ⟨hx, by simp [hr, hR]⟩
      · rintro ⟨hx, hR⟩
        simp only [List.mem_cons, not_or] at hR
        exact ⟨⟨hx, hR.1⟩, hR.2⟩

theorem keysOf_foldl_removeKey {α : Type} (R : List String)
    (l : List (String × α)) :
    keysOf (R.foldl (fun t id => removeKey id t) l) =
      R.foldl (fun ks id => ks.filter (fun x => x ≠ id)) (keysOf l) := by
  induction R generalizing l with
  | nil => rfl
  | cons r R ih => rw [List.foldl_cons, List.foldl_cons, ih, keysOf_removeKey]

theorem nodup_keysOf_foldl_removeKey {α : Type} (R : List String)
    {l : List (String × α)} (h : (keysOf l).Nodup) :
    (keysOf (R.foldl (fun t id => removeKey id t) l)).Nodup := by
  induction R generalizing l with
  | nil => exact h
  | cons r R ih => exact ih (nodup_keysOf_removeKey r h)

/-! ### Sink-volume lemmas -/

theorem applySinkVolumes_length (dv : List ℚ) (sv : ℚ) (j : Nat)
    (sinks : List Sink) :
    (applySinkVolumes dv sv j sinks).length = sinks.length := by
  induction sinks generalizing j with
  | nil => rfl
  | cons s rest ih => simp [applySinkVolumes, ih]

theorem applySinkVolumes_getD (dv : List ℚ) (sv : ℚ) (sinks : List Sink)
    (j i : Nat) (h : i < sinks.length) :
    (applySinkVolumes dv sv j sinks).getD i Sink.new =
      (sinks.getD i Sink.new).set_volume (combine_volume (dv.getD (j + i) 1) sv) := by
  induction sinks generalizing j i with
  | nil => simp at h
  | cons s rest ih =>
      cases i with
      | zero => simp [applySinkVolumes]
      | succ n =>
          simp only [applySinkVolumes, List.getD_cons_succ]
          have e : j + 1 + n = j + (n + 1) := by omega
          rw [ih (j + 1) n (by simpa using Nat.lt_of_succ_lt_succ h), e]

theorem playPrepareSinks_length (dv : List ℚ) (sv : ℚ) (j : Nat)
    (sinks : List Sink) :
    (playPrepareSinks dv sv j sinks).length = sinks.length := by
  induction sinks generalizing j with
  | nil => rfl
  | cons s rest ih => simp [playPrepareSinks, ih]

theorem playPrepareSinks_getD (dv : List ℚ) (sv : ℚ) (sinks : List Sink)
    (j i : Nat) (h : i < sinks.length) :
    (playPrepareSinks dv sv j sinks).getD i Sink.new =
      ((sinks.getD i Sink.new).set_volume
        (combine_volume (dv.getD (j + i) 1) sv)).append := by
  induction sinks generalizing j i with
  | nil => simp at h
  | cons s rest ih =>
      cases i with
      | zero => simp [playPrepareSinks]
      | succ n =>
          simp only [playPrepareSinks, List.getD_cons_succ]
          have e : j + 1 + n = j + (n + 1) := by omega
          rw [ih (j + 1) n (by simpa using Nat.lt_of_succ_lt_succ h), e]

theorem Sink.volume_set_volume (s : Sink) (v : ℚ) : (s.set_volume v).volume = v := rfl

theorem Sink.volume_append (s : Sink) : s.append.volume = s.volume := rfl

/-- C2, claim theorem.
For device gain `a ∈ [0,1]` and sound gain `b ∈ [0,1]`, the composed volume
`combine_volume a b` equals `a * b` and lies in `[0,1]`; moreover
`apply_volume_updates` (used by every volume update) sets every sink's volume
to `combine_volume (device_volumes[i], sound_volume)`, and a successful Play
with sound gain `b` stores an instance whose every sink carries
`combine_volume (device_volumes[i], b)`. -/
theorem c2_composed_volume (a b : ℚ) (ha0 : 0 ≤ a) (ha1 : a ≤ 1)
    (hb0 : 0 ≤ b) (hb1 : b ≤ 1) :
    combine_volume a b = a * b ∧ 0 ≤ combine_volume a b ∧ combine_volume a b ≤ 1 ∧
    (∀ (inst : SoundInstance) (i : Nat), i < inst.sinks.length →
      (inst.apply_volume_updates.sinks.getD i Sink.new).volume =
        combine_volume (inst.device_volumes.getD i 1) inst.sound_volume) ∧
    (∀ (env : StepEnv) (fp sid : String) (sp : Option ℚ) (lo : Bool)
       (st : EngineState) (d : Option ℚ), env.decode fp = some d →
      ∀ inst, getKey (handle_play_command env fp sid sp b lo st).sound_instances sid
          = some inst →
        ∀ i, i < inst.sinks.length →
          (inst.sinks.getD i Sink.new).volume =
            combine_volume (inst.device_volumes.getD i 1) b) := by
  have hcv : combine_volume a b = a * b := by
    unfold combine_volume
    rw [max_eq_left ha0, max_eq_left hb0]
  refine ⟨hcv, ?_, ?_, ?_, ?_⟩
  · rw [hcv]; exact mul_nonneg ha0 hb0
  · rw [hcv]; nlinarith
  · intro inst i hi
    show ((applySinkVolumes inst.device_volumes inst.sound_volume 0 inst.sinks).getD
        i Sink.new).volume = _
    rw [applySinkVolumes_getD inst.device_volumes inst.sound_volume inst.sinks 0 i hi]
    simp [Sink.volume_set_volume]
  · intro env fp sid sp lo st d hd inst hkey
    simp only [handle_play_command, hd, getKey_insertKey, Option.some.injEq] at hkey
    subst hkey
    intro i hi
    rw [playPrepareSinks_getD _ b _ 0 i (by simpa [playPrepareSinks_length] using hi)]
    simp [Sink.volume_append, Sink.volume_set_volume]

/-- C2, witness. -/
theorem c2_composed_volume_witness :
    combine_volume (1/2) (2/3) = (1/2 : ℚ) * (2/3) ∧
    0 ≤ combine_volume (1/2) (2/3) ∧ combine_volume (1/2) (2/3) ≤ 1 := by
  have h := c2_composed_volume (1/2) (2/3) (by norm_num) (by norm_num)
    (by norm_num) (by norm_num)
  exact ⟨h.1, h.2.1, h.2.2.1⟩

/-- C10, claim theorem.
`combine_volume` applies no upper bound: it is `max a 0 * max b 0` for all
inputs, and `combine_volume 1 b = b` for any nonnegative `b`.  Hence a Play
with sound gain above `1` (here local-only, device gain `1`) stores a sink
whose volume is that gain, above `1`; and `update_sound_volume` likewise sets
each sink to `combine_volume (device_volumes[i], new_gain)` with no clamp. -/
theorem c10_sound_gain_unclamped :
    (∀ a b : ℚ, combine_volume a b = max a 0 * max b 0) ∧
    (∀ b : ℚ, 0 ≤ b → combine_volume 1 b = b) ∧
    (∀ (env : StepEnv) (fp sid : String) (sp : Option ℚ) (sv : ℚ)
       (st : EngineState),
      1 < sv → env.stream_ok none = true → env.decode fp ≠ none →
      (getKey (handle_play_command env fp sid sp sv true st).sound_instances
          sid).map (fun i => i.sinks.map Sink.volume) = some [sv]) ∧
    (∀ (inst : SoundInstance) (sv : ℚ) (i : Nat), i < inst.sinks.length →
      ((inst.update_sound_volume sv).sinks.getD i Sink.new).volume =
        combine_volume (inst.device_volumes.getD i 1) sv) := by
  have hone : ∀ b : ℚ, 0 ≤ b → combine_volume 1 b = b := by
    intro b hb
    unfold combine_volume
    rw [max_eq_left hb, max_eq_left (by norm_num : (0:ℚ) ≤ 1), one_mul]
  refine ⟨fun a b => rfl, hone, ?_, ?_⟩
  · intro env fp sid sp sv st hsv hok hdec
    obtain ⟨d, hd⟩ := Option.ne_none_iff_exists'.mp hdec
    simp only [handle_play_command, hd]
    rw [getKey_insertKey]
    simp only [Option.map_some, Option.some.injEq, setup_devices_for_playback,
      try_add_device_stream, create_stream_and_sink, hok, if_pos,
      playPrepareSinks, List.nil_append]
    simp only [List.map_cons, List.map_nil, Sink.volume_append,
      Sink.volume_set_volume, List.getD, List.get?, Option.getD]
    rw [hone sv (le_of_lt (lt_trans one_pos hsv))]
    rfl
  · intro inst sv i hi
    show ((applySinkVolumes inst.device_volumes sv 0 inst.sinks).getD i Sink.new).volume = _
    rw [applySinkVolumes_getD inst.device_volumes sv inst.sinks 0 i hi]
    simp [Sink.volume_set_volume]

/-! ### Mixer lemmas (C9) -/

theorem remapChannel_eq_spec (in_ch out_ch : Nat) (inputs : List ℚ) (c : Nat)
    (h : 1 ≤ in_ch) :
    remapChannel in_ch out_ch inputs c = remapChannelSpec in_ch out_ch inputs c := by
  unfold remapChannel remapChannelSpec
  rw [if_neg (by omega)]

theorem fillFrames_eq_spec (in_ch out_ch : Nat) (vol : ℚ) (h : 1 ≤ in_ch) :
    ∀ (n : Nat) (buffer : List ℚ),
      fillFrames in_ch out_ch vol n buffer = fillFramesSpec in_ch out_ch vol n buffer := by
  intro n
  induction n with
  | zero => intro buffer; rfl
  | succ m ih =>
      intro buffer
      simp only [fillFrames, fillFramesSpec, ih,
        remapChannel_eq_spec in_ch out_ch _ _ h]

theorem fillFrames_snd (in_ch out_ch : Nat) (vol : ℚ) :
    ∀ (n : Nat) (buffer : List ℚ),
      (fillFrames in_ch out_ch vol n buffer).2 = buffer.drop (n * in_ch) := by
  intro n
  induction n with
  | zero => intro buffer; simp [fillFrames]
  | succ m ih =>
      intro buffer
      simp only [fillFrames, popFrame, ih, List.drop_drop]
      congr 1
      ring

theorem clampSample_bounds (x : ℚ) : -1 ≤ clampSample x ∧ clampSample x ≤ 1 := by
  unfold clampSample
  constructor
  · exact le_min (by norm_num) (le_max_left _ _)
  · exact min_le_left _ _

theorem fillFrames_mem_bounds (in_ch out_ch : Nat) (vol : ℚ) :
    ∀ (n : Nat) (buffer : List ℚ) (y : ℚ),
      y ∈ (fillFrames in_ch out_ch vol n buffer).1 → -1 ≤ y ∧ y ≤ 1 := by
  intro n
  induction n with
  | zero => intro buffer y hy; simp [fillFrames] at hy
  | succ m ih =>
      intro buffer y hy
      simp only [fillFrames, List.mem_append, List.mem_map, List.mem_range] at hy
      rcases hy with ⟨c, _, rfl⟩ | hy
      · exact clampSample_bounds _
      · exact ih _ y hy

/-- C9, claim theorem.
The render step `fill_output_from_buffer` coincides with the specification's
description of the fixed remap policy (`fill_output_spec`, written from §4.5's
words) for any input stream with at least one channel; per output frame it
consumes exactly one input-channel frame's worth of ring-buffer samples, and
every sample it writes is clamped into `[-1, 1]`. -/
theorem c9_render_remap (data buffer : List ℚ) (in_ch out_ch : Nat) (vol : ℚ)
    (h : 1 ≤ in_ch) :
    fill_output_from_buffer data buffer in_ch out_ch vol
      = fill_output_spec data buffer in_ch out_ch vol ∧
    (fill_output_from_buffer data buffer in_ch out_ch vol).2
      = buffer.drop ((data.length / out_ch) * in_ch) ∧
    (∀ y ∈ (fillFrames in_ch out_ch vol (data.length / out_ch) buffer).1,
      -1 ≤ y ∧ y ≤ 1) := by
  refine ⟨?_, ?_, ?_⟩
  · simp only [fill_output_from_buffer, fill_output_spec,
      fillFrames_eq_spec _ _ _ h]
  · simp only [fill_output_from_buffer]
    exact fillFrames_snd in_ch out_ch vol _ buffer
  · exact fun y hy => fillFrames_mem_bounds in_ch out_ch vol _ buffer y hy

/-- C9, witness. -/
theorem c9_render_remap_witness :
    fill_output_from_buffer [0, 0] [1/2, 1/4, 1/3] 2 1 (1/2)
      = fill_output_spec [0, 0] [1/2, 1/4, 1/3] 2 1 (1/2) ∧
    (fill_output_from_buffer [0, 0] [1/2, 1/4, 1/3] 2 1 (1/2)).2
      = ([(1:ℚ)/2, 1/4, 1/3]).drop ((([(0:ℚ), 0]).length / 1) * 2) := by
  have hc := c9_render_remap [0, 0] [1/2, 1/4, 1/3] 2 1 (1/2) (by norm_num)
  exact ⟨hc.1, hc.2.1⟩

/-! ### Decoder sample-range lemmas (C8) -/

theorem mem_interleave {channels : Nat} {sample : Nat → Nat → ℚ} :
    ∀ {frames : Nat} {y : ℚ}, y ∈ interleave channels sample frames →
      ∃ ch frame, ch < channels ∧ frame < frames ∧ y = sample ch frame := by
  intro frames
  induction frames with
  | zero => intro y hy; simp [interleave] at hy
  | succ n ih =>
      intro y hy
      simp only [interleave, List.mem_append] at hy
      rcases hy with h | h
      · obtain ⟨ch, fr, hch, hfr, rfl⟩ := ih h
        exact ⟨ch, fr, hch, Nat.lt_succ_of_lt hfr, rfl⟩
      · simp only [List.mem_map, List.mem_range] at h
        obtain ⟨ch, hch, rfl⟩ := h
        exact ⟨ch, n, hch, Nat.lt_succ_self n, rfl⟩

theorem getD_mem_or_default {α : Type} :
    ∀ (l : List α) (i : Nat) (d : α), l.getD i d ∈ l ∨ l.getD i d = d := by
  intro l
  induction l with
  | nil => intro i d; right; cases i <;> rfl
  | cons a rest ih =>
      intro i d
      cases i with
      | zero => left; simp
      | succ n =>
          rcases ih n d with h | h
          · left; simp only [List.getD_cons_succ]; exact List.mem_cons_of_mem a h
          · right; simpa using h

theorem intSample_bound (chans : List (List ℤ)) (lo hi : ℤ)
    (hlo : lo ≤ 0) (hhi : 0 ≤ hi)
    (hrange : ∀ c ∈ chans, ∀ x ∈ c, lo ≤ x ∧ x ≤ hi) (ch frame : Nat) :
    lo ≤ intSample chans ch frame ∧ intSample chans ch frame ≤ hi := by
  unfold intSample
  rcases getD_mem_or_default chans ch [] with hc | hc
  · rcases getD_mem_or_default (chans.getD ch []) frame 0 with hf | hf
    · exact hrange _ hc _ hf
    · rw [hf]; exact ⟨hlo, hhi⟩
  · rw [hc]; exact ⟨by simpa using hlo, by simpa using hhi⟩

/-- C8, counterexample.
The most negative 16-bit sample decodes to `-32768/32767`, which is strictly
below `-1.0`: the claimed bound `[-1.0, 1.0]` does not hold for S16 input. -/
theorem c8_counterexample :
    decode_and_buffer (AudioBufferRef.s16 1 [[-32768]]) 1
      = some [(-32768 : ℚ) / 32767] ∧ ((-32768 : ℚ) / 32767) < -1 := by
  constructor
  · simp [decode_and_buffer, interleave, intSample, List.range_succ]
  · norm_num

/-- C8, claim theorem (amended).
Per-format output ranges of `decode_and_buffer`, assuming the decoded planes
hold samples in the source format's machine range: U8 and S24 samples land in
`[-1, 1]`; S16 lands in `[-32768/32767, 1]` and S32 in
`[-2147483648/2147483647, 1]` (below `-1` exactly at the most negative
integer); F32 samples are passed through unchanged, so each output value is
an input value (or the `0` read past a plane's end). -/
theorem c8_sample_normalization :
    (∀ (frames : Nat) (chans : List (List ℤ)) (channels : Nat) (out : List ℚ),
      decode_and_buffer (.u8 frames chans) channels = some out →
      (∀ c ∈ chans, ∀ x ∈ c, (0 : ℤ) ≤ x ∧ x ≤ 255) →
      ∀ y ∈ out, -1 ≤ y ∧ y ≤ 1) ∧
    (∀ (frames : Nat) (chans : List (List ℤ)) (channels : Nat) (out : List ℚ),
      decode_and_buffer (.s24 frames chans) channels = some out →
      (∀ c ∈ chans, ∀ x ∈ c, -8388608 ≤ x ∧ x ≤ 8388607) →
      ∀ y ∈ out, -1 ≤ y ∧ y ≤ 1) ∧
    (∀ (frames : Nat) (chans : List (List ℤ)) (channels : Nat) (out : List ℚ),
      decode_and_buffer (.s16 frames chans) channels = some out →
      (∀ c ∈ chans, ∀ x ∈ c, -32768 ≤ x ∧ x ≤ 32767) →
      ∀ y ∈ out, -(32768 / 32767) ≤ y ∧ y ≤ 1) ∧
    (∀ (frames : Nat) (chans : List (List ℤ)) (channels : Nat) (out : List ℚ),
      decode_and_buffer (.s32 frames chans) channels = some out →
      (∀ c ∈ chans, ∀ x ∈ c, -2147483648 ≤ x ∧ x ≤ 2147483647) →
      ∀ y ∈ out, -(2147483648 / 2147483647) ≤ y ∧ y ≤ 1) ∧
    (∀ (frames : Nat) (chans : List (List ℚ)) (channels : Nat) (out : List ℚ),
      decode_and_buffer (.f32 frames chans) channels = some out →
      ∀ y ∈ out, y = 0 ∨ ∃ c ∈ chans, y ∈ c) := by
  refine ⟨?_, ?_, ?_, ?_, ?_⟩
  · intro frames chans channels out hout hrange y hy
    rw [decode_and_buffer, Option.some.injEq] at hout
    subst hout
    obtain ⟨ch, fr, -, -, rfl⟩ := mem_interleave hy
    obtain ⟨h1, h2⟩ := intSample_bound chans 0 255 le_rfl (by norm_num) hrange ch fr
    have h1q : (0 : ℚ) ≤ (intSample chans ch fr : ℚ) := by exact_mod_cast h1
    have h2q : (intSample chans ch fr : ℚ) ≤ 255 := by exact_mod_cast h2
    constructor
    · linarith
    · linarith
  · intro frames chans channels out hout hrange y hy
    rw [decode_and_buffer, Option.some.injEq] at hout
    subst hout
    obtain ⟨ch, fr, -, -, rfl⟩ := mem_interleave hy
    obtain ⟨h1, h2⟩ := intSample_bound chans (-8388608) 8388607 (by norm_num)
      (by norm_num) hrange ch fr
    have h1q : (-8388608 : ℚ) ≤ (intSample chans ch fr : ℚ) := by exact_mod_cast h1
    have h2q : (intSample chans ch fr : ℚ) ≤ 8388607 := by exact_mod_cast h2
    constructor
    · linarith
    · linarith
  · intro frames chans channels out hout hrange y hy
    rw [decode_and_buffer, Option.some.injEq] at hout
    subst hout
    obtain ⟨ch, fr, -, -, rfl⟩ := mem_interleave hy
    obtain ⟨h1, h2⟩ := intSample_bound chans (-32768) 32767 (by norm_num)
      (by norm_num) hrange ch fr
    have h1q : (-32768 : ℚ) ≤ (intSample chans ch fr : ℚ) := by exact_mod_cast h1
    have h2q : (intSample chans ch fr : ℚ) ≤ 32767 := by exact_mod_cast h2
    constructor
    · linarith
    · linarith
  · intro frames chans channels out hout hrange y hy
    rw [decode_and_buffer, Option.some.injEq] at hout
    subst hout
    obtain ⟨ch, fr, -, -, rfl⟩ := mem_interleave hy
    obtain ⟨h1, h2⟩ := intSample_bound chans (-2147483648) 2147483647
      (by norm_num) (by norm_num) hrange ch fr
    have h1q : (-2147483648 : ℚ) ≤ (intSample chans ch fr : ℚ) := by exact_mod_cast h1
    have h2q : (intSample chans ch fr : ℚ) ≤ 2147483647 := by exact_mod_cast h2
    constructor
    · linarith
    · linarith
  · intro frames chans channels out hout y hy
    rw [decode_and_buffer, Option.some.injEq] at hout
    subst hout
    obtain ⟨ch, fr, -, -, rfl⟩ := mem_interleave hy
    unfold ratSample
    rcases getD_mem_or_default chans ch [] with hc | hc
    · rcases getD_mem_or_default (chans.getD ch []) fr 0 with hf | hf
      · exact Or.inr ⟨_, hc, hf⟩
      · exact Or.inl hf
    · rw [hc]; exact Or.inl rfl

/-- C8, witness. -/
theorem c8_sample_normalization_witness :
    decode_and_buffer (AudioBufferRef.u8 1 [[255]]) 1 = some [(127 : ℚ) / 128] ∧
    (-1 ≤ (127 : ℚ) / 128 ∧ (127 : ℚ) / 128 ≤ 1) :=
  ⟨by norm_num [decode_and_buffer, interleave, intSample, List.range_succ],
   c8_sample_normalization.1 1 [[255]] 1 [(127 : ℚ) / 128]
     (by norm_num [decode_and_buffer, interleave, intSample, List.range_succ])
     (by
       intro c hc x hx
       simp only [List.mem_singleton] at hc
       subst hc
       simp only [List.mem_singleton] at hx
       subst hx
       norm_num)
     ((127 : ℚ) / 128) (by simp)⟩

/-! ### Engine-state invariant lemmas (C1, C5) -/

theorem getKey_playRemoveExisting_self (sid : String)
    (tbl : List (String × SoundInstance)) :
    getKey (playRemoveExisting sid tbl).1 sid = none := by
  unfold playRemoveExisting
  cases h : getKey tbl sid
  · simpa using h
  · simpa using getKey_removeKey_self sid tbl

theorem mem_keysOf_playRemoveExisting {sid x : String}
    {tbl : List (String × SoundInstance)}
    (hx : x ∈ keysOf (playRemoveExisting sid tbl).1) : x ∈ keysOf tbl := by
  unfold playRemoveExisting at hx
  cases h : getKey tbl sid <;> simp only [h] at hx
  · exact hx
  · exact (mem_keysOf_removeKey.mp hx).1

theorem keysOf_removeKey_playRemoveExisting (sid : String)
    (tbl : List (String × SoundInstance)) :
    keysOf (removeKey sid (playRemoveExisting sid tbl).1)
      = (keysOf tbl).filter (fun x => x ≠ sid) := by
  unfold playRemoveExisting
  cases h : getKey tbl sid
  · simp [keysOf_removeKey]
  · simp [removeKey_removeKey, keysOf_removeKey]

theorem nodup_keysOf_playRemoveExisting (sid : String)
    {tbl : List (String × SoundInstance)} (h : (keysOf tbl).Nodup) :
    (keysOf (playRemoveExisting sid tbl).1).Nodup := by
  unfold playRemoveExisting
  cases hk : getKey tbl sid
  · simpa using h
  · simpa using nodup_keysOf_removeKey sid h

theorem nodup_handle_play (env : StepEnv) (fp sid : String) (sp : Option ℚ)
    (sv : ℚ) (lo : Bool) (st : EngineState)
    (h : (keysOf st.sound_instances).Nodup) :
    (keysOf (handle_play_command env fp sid sp sv lo st).sound_instances).Nodup := by
  cases hd : env.decode fp
  · simp only [handle_play_command, hd]
    exact nodup_keysOf_playRemoveExisting sid h
  · simp only [handle_play_command, hd]
    exact nodup_keysOf_insertKey sid _ (nodup_keysOf_playRemoveExisting sid h)

theorem nodup_process_command (env : StepEnv) (cmd : AudioCommand)
    (st : EngineState) (h : (keysOf st.sound_instances).Nodup) :
    (keysOf (process_command env cmd st).sound_instances).Nodup := by
  cases cmd with
  | play fp sid sp sv lo => exact nodup_handle_play env fp sid sp sv lo st h
  | stop sid => exact nodup_keysOf_removeKey sid h
  | stopAll => simp [process_command, keysOf]
  | updateSoundVolume sid sv =>
      simpa [process_command, keysOf_updateKey] using h
  | updateDeviceVolumes =>
      have heq := keysOf_map_fst_eq (fun p : String × SoundInstance =>
        (p.1, p.2.update_device_volumes env.manager.virtual_volume
          env.manager.output_volume)) (fun p => rfl) st.sound_instances
      simpa [process_command, heq] using h
  | shutdown => simp [process_command, keysOf]

theorem keysOf_applyDrain (d : String → Bool) (st : EngineState) :
    keysOf (applyDrain d st).sound_instances = keysOf st.sound_instances := by
  refine keysOf_map_fst_eq _ (fun p => ?_) st.sound_instances
  by_cases h : d p.1 <;> simp [h]

theorem playing_applyDrain (d : String → Bool) (st : EngineState) :
    (applyDrain d st).playing = st.playing := rfl

theorem nodup_cleanup (st : EngineState)
    (h : (keysOf st.sound_instances).Nodup) :
    (keysOf (cleanup_finished_sounds st).sound_instances).Nodup :=
  nodup_keysOf_foldl_removeKey _ h

theorem nodup_worker :
    ∀ (trace : List (StepEnv × AudioCommand)) (st : EngineState),
      (keysOf st.sound_instances).Nodup →
      (keysOf (audio_thread_worker trace st).sound_instances).Nodup := by
  intro trace
  induction trace with
  | nil => intro st h; exact h
  | cons p rest ih =>
      intro st h
      obtain ⟨env, cmd⟩ := p
      have h0 : (keysOf (applyDrain env.drained st).sound_instances).Nodup := by
        rw [keysOf_applyDrain]; exact h
      cases cmd with
      | shutdown =>
          show (keysOf (process_command env .shutdown
            (applyDrain env.drained st)).sound_instances).Nodup
          simp [process_command, keysOf]
      | play fp sid sp sv lo =>
          exact ih _ (nodup_cleanup _ (nodup_process_command env _ _ h0))
      | stop sid => exact ih _ (nodup_cleanup _ (nodup_process_command env _ _ h0))
      | stopAll => exact ih _ (nodup_cleanup _ (nodup_process_command env _ _ h0))
      | updateSoundVolume sid sv =>
          exact ih _ (nodup_cleanup _ (nodup_process_command env _ _ h0))
      | updateDeviceVolumes =>
          exact ih _ (nodup_cleanup _ (nodup_process_command env _ _ h0))

/-- C1, claim theorem.
(1) After any command trace from the initial state the instance table's key
list has no duplicates — at most one live instance per sound_id.
(2) The play handler's first action removes any existing instance for the id
and stops it: the intermediate table holds nothing for the id.
(3) The table `handle_play_command` leaves behind is either that intermediate
table (decoder failure) or the new instance inserted into it — the old
instance is gone before the new one appears, so no state holds both. -/
theorem c1_at_most_one_instance :
    (∀ trace : List (StepEnv × AudioCommand),
      (keysOf (audio_thread_worker trace initState).sound_instances).Nodup) ∧
    (∀ (sid : String) (tbl : List (String × SoundInstance)),
      getKey (playRemoveExisting sid tbl).1 sid = none ∧
      ∀ inst, getKey tbl sid = some inst →
        (playRemoveExisting sid tbl).2 = some inst.stop) ∧
    (∀ (env : StepEnv) (fp sid : String) (sp : Option ℚ) (sv : ℚ) (lo : Bool)
       (st : EngineState),
      (env.decode fp = none ∧
        (handle_play_command env fp sid sp sv lo st).sound_instances
          = (playRemoveExisting sid st.sound_instances).1) ∨
      (∃ ni, (handle_play_command env fp sid sp sv lo st).sound_instances
          = insertKey sid ni (playRemoveExisting sid st.sound_instances).1)) := by
  refine ⟨?_, ?_, ?_⟩
  · intro trace
    exact nodup_worker trace initState (by simp [initState, keysOf])
  · intro sid tbl
    refine ⟨getKey_playRemoveExisting_self sid tbl, ?_⟩
    intro inst hinst
    unfold playRemoveExisting
    rw [hinst]
  · intro env fp sid sp sv lo st
    cases hd : env.decode fp
    · exact Or.inl ⟨rfl, by simp only [handle_play_command, hd]⟩
    · right
      simp only [handle_play_command, hd]
      exact ⟨_, rfl⟩

/-- C1, witness. -/
theorem c1_at_most_one_instance_witness :
    getKey (playRemoveExisting "s"
        [("s", (⟨[Sink.new], [1], 1⟩ : SoundInstance))]).1 "s" = none ∧
    (playRemoveExisting "s" [("s", (⟨[Sink.new], [1], 1⟩ : SoundInstance))]).2
      = some (SoundInstance.stop ⟨[Sink.new], [1], 1⟩) ∧
    (keysOf (audio_thread_worker [(envAllOk, .play "f" "s" none 1 true)]
        initState).sound_instances).Nodup := by
  refine ⟨(c1_at_most_one_instance.2.1 "s" _).1,
    (c1_at_most_one_instance.2.1 "s" _).2 _ ?_,
    c1_at_most_one_instance.1 _⟩
  simp [getKey]

theorem subset_handle_play (env : StepEnv) (fp sid : String) (sp : Option ℚ)
    (sv : ℚ) (lo : Bool) (st : EngineState)
    (h : ∀ x ∈ keysOf st.sound_instances, x ∈ keysOf st.playing) :
    ∀ x ∈ keysOf (handle_play_command env fp sid sp sv lo st).sound_instances,
      x ∈ keysOf (handle_play_command env fp sid sp sv lo st).playing := by
  intro x hx
  cases hd : env.decode fp
  · simp only [handle_play_command, hd] at hx ⊢
    exact h x (mem_keysOf_playRemoveExisting hx)
  · simp only [handle_play_command, hd] at hx ⊢
    rw [keysOf_insertKey] at hx ⊢
    rcases List.mem_append.mp hx with hx1 | hx1
    · obtain ⟨hx2, hxne⟩ := mem_keysOf_removeKey.mp hx1
      refine List.mem_append.mpr (Or.inl ?_)
      exact mem_keysOf_removeKey.mpr
        ⟨h x (mem_keysOf_playRemoveExisting hx2), hxne⟩
    · exact List.mem_append.mpr (Or.inr hx1)

theorem subset_process_command (env : StepEnv) (cmd : AudioCommand)
    (st : EngineState)
    (h : ∀ x ∈ keysOf st.sound_instances, x ∈ keysOf st.playing) :
    ∀ x ∈ keysOf (process_command env cmd st).sound_instances,
      x ∈ keysOf (process_command env cmd st).playing := by
  cases cmd with
  | play fp sid sp sv lo => exact subset_handle_play env fp sid sp sv lo st h
  | stop sid =>
      intro x hx
      obtain ⟨hx1, hx2⟩ := mem_keysOf_removeKey.mp hx
      exact mem_keysOf_removeKey.mpr ⟨h x hx1, hx2⟩
  | stopAll => intro x hx; simp [process_command, keysOf] at hx
  | updateSoundVolume sid sv =>
      intro x hx
      refine h x ?_
      simp only [process_command] at hx
      rwa [keysOf_updateKey] at hx
  | updateDeviceVolumes =>
      intro x hx
      refine h x ?_
      have heq := keysOf_map_fst_eq (fun p : String × SoundInstance =>
        (p.1, p.2.update_device_volumes env.manager.virtual_volume
          env.manager.output_volume)) (fun p => rfl) st.sound_instances
      simp only [process_command] at hx
      rwa [heq] at hx
  | shutdown => intro x hx; simp [process_command, keysOf] at hx

theorem subset_cleanup (st : EngineState)
    (h : ∀ x ∈ keysOf st.sound_instances, x ∈ keysOf st.playing) :
    ∀ x ∈ keysOf (cleanup_finished_sounds st).sound_instances,
      x ∈ keysOf (cleanup_finished_sounds st).playing := by
  intro x hx
  obtain ⟨hx1, hx2⟩ := (mem_keysOf_foldl_removeKey _ _ _).mp hx
  exact (mem_keysOf_foldl_removeKey _ _ _).mpr ⟨h x hx1, hx2⟩

theorem subset_worker :
    ∀ (trace : List (StepEnv × AudioCommand)) (st : EngineState),
      (∀ x ∈ keysOf st.sound_instances, x ∈ keysOf st.playing) →
      ∀ x ∈ keysOf (audio_thread_worker trace st).sound_instances,
        x ∈ keysOf (audio_thread_worker trace st).playing := by
  intro trace
  induction trace with
  | nil => intro st h; exact h
  | cons p rest ih =>
      intro st h
      obtain ⟨env, cmd⟩ := p
      have h0 : ∀ x ∈ keysOf (applyDrain env.drained st).sound_instances,
          x ∈ keysOf (applyDrain env.drained st).playing := by
        intro x hx
        rw [keysOf_applyDrain] at hx
        rw [playing_applyDrain]
        exact h x hx
      cases cmd with
      | shutdown =>
          intro x hx
          simp [audio_thread_worker, process_command, keysOf] at hx
      | play fp sid sp sv lo =>
          exact ih _ (subset_cleanup _ (subset_process_command env _ _ h0))
      | stop sid =>
          exact ih _ (subset_cleanup _ (subset_process_command env _ _ h0))
      | stopAll =>
          exact ih _ (subset_cleanup _ (subset_process_command env _ _ h0))
      | updateSoundVolume sid sv =>
          exact ih _ (subset_cleanup _ (subset_process_command env _ _ h0))
      | updateDeviceVolumes =>
          exact ih _ (subset_cleanup _ (subset_process_command env _ _ h0))

theorem keys_eq_handle_play (env : StepEnv) (fp sid : String) (sp : Option ℚ)
    (sv : ℚ) (lo : Bool) (st : EngineState) (d : Option ℚ)
    (hd : env.decode fp = some d)
    (h : keysOf st.sound_instances = keysOf st.playing) :
    keysOf (handle_play_command env fp sid sp sv lo st).sound_instances
      = keysOf (handle_play_command env fp sid sp sv lo st).playing := by
  simp only [handle_play_command, hd]
  rw [keysOf_insertKey, keysOf_insertKey, keysOf_removeKey_playRemoveExisting,
    keysOf_removeKey, h]

theorem keys_eq_process_command (env : StepEnv) (cmd : AudioCommand)
    (st : EngineState)
    (hp : ∀ fp sid sp sv lo, cmd = .play fp sid sp sv lo → env.decode fp ≠ none)
    (h : keysOf st.sound_instances = keysOf st.playing) :
    keysOf (process_command env cmd st).sound_instances
      = keysOf (process_command env cmd st).playing := by
  cases cmd with
  | play fp sid sp sv lo =>
      obtain ⟨d, hd⟩ :=
        Option.ne_none_iff_exists'.mp (hp fp sid sp sv lo rfl)
      exact keys_eq_handle_play env fp sid sp sv lo st d hd h
  | stop sid =>
      show keysOf (removeKey sid st.sound_instances)
          = keysOf (removeKey sid st.playing)
      rw [keysOf_removeKey, keysOf_removeKey, h]
  | stopAll => rfl
  | updateSoundVolume sid sv =>
      have heq := keysOf_updateKey sid
        (fun i => i.update_sound_volume sv) st.sound_instances
      simp only [process_command]
      rw [heq, h]
  | updateDeviceVolumes =>
      have heq := keysOf_map_fst_eq (fun p : String × SoundInstance =>
        (p.1, p.2.update_device_volumes env.manager.virtual_volume
          env.manager.output_volume)) (fun p => rfl) st.sound_instances
      simp only [process_command]
      rw [heq, h]
  | shutdown => rfl

theorem keys_eq_cleanup (st : EngineState)
    (h : keysOf st.sound_instances = keysOf st.playing) :
    keysOf (cleanup_finished_sounds st).sound_instances
      = keysOf (cleanup_finished_sounds st).playing := by
  show keysOf (List.foldl _ st.sound_instances _)
      = keysOf (List.foldl _ st.playing _)
  rw [keysOf_foldl_removeKey, keysOf_foldl_removeKey, h]

theorem keys_eq_worker :
    ∀ (trace : List (StepEnv × AudioCommand)) (st : EngineState),
      (∀ e c, (e, c) ∈ trace →
        ∀ fp sid sp sv lo, c = AudioCommand.play fp sid sp sv lo →
          e.decode fp ≠ none) →
      keysOf st.sound_instances = keysOf st.playing →
      keysOf (audio_thread_worker trace st).sound_instances
        = keysOf (audio_thread_worker trace st).playing := by
  intro trace
  induction trace with
  | nil => intro st _ h; exact h
  | cons p rest ih =>
      intro st hp h
      obtain ⟨env, cmd⟩ := p
      have h0 : keysOf (applyDrain env.drained st).sound_instances
          = keysOf (applyDrain env.drained st).playing := by
        rw [keysOf_applyDrain, playing_applyDrain]; exact h
      have hrest : ∀ e c, (e, c) ∈ rest →
          ∀ fp sid sp sv lo, c = AudioCommand.play fp sid sp sv lo →
            e.decode fp ≠ none := by
        intro e c hc
        exact hp e c (List.mem_cons_of_mem _ hc)
      have hhead : ∀ fp sid sp sv lo,
          cmd = AudioCommand.play fp sid sp sv lo → env.decode fp ≠ none := by
        intro fp sid sp sv lo hc
        exact hp env cmd (List.mem_cons_self _ _) fp sid sp sv lo hc
      cases cmd with
      | shutdown => rfl
      | play fp sid sp sv lo =>
          exact ih _ hrest (keys_eq_cleanup _ (keys_eq_process_command env _ _ hhead h0))
      | stop sid =>
          exact ih _ hrest (keys_eq_cleanup _ (keys_eq_process_command env _ _ hhead h0))
      | stopAll =>
          exact ih _ hrest (keys_eq_cleanup _ (keys_eq_process_command env _ _ hhead h0))
      | updateSoundVolume sid sv =>
          exact ih _ hrest (keys_eq_cleanup _ (keys_eq_process_command env _ _ hhead h0))
      | updateDeviceVolumes =>
          exact ih _ hrest (keys_eq_cleanup _ (keys_eq_process_command env _ _ hhead h0))

/-- C5, counterexample.
A successful Play for "s" followed by a Play for "s" whose decoder fails
leaves the instance table empty but the position map still holding "s": the
two key sets differ, refuting the claimed exact correspondence. -/
theorem c5_counterexample :
    keysOf (audio_thread_worker [(envAllOk, .play "good" "s" none 1 true),
      (envDecodeFail, .play "bad" "s" none 1 true)] initState).sound_instances
      = [] ∧
    keysOf (audio_thread_worker [(envAllOk, .play "good" "s" none 1 true),
      (envDecodeFail, .play "bad" "s" none 1 true)] initState).playing
      = ["s"] := by
  norm_num [audio_thread_worker, applyDrain, process_command, handle_play_command,
    playRemoveExisting, setup_devices_for_playback, try_add_device_stream,
    create_stream_and_sink, cleanup_finished_sounds, getKey, removeKey, insertKey,
    keysOf, playPrepareSinks, combine_volume, SoundInstance.is_finished,
    Sink.new, Sink.append, Sink.set_volume, envAllOk, envDecodeFail, initState,
    List.filter, max_def]

/-- C5, claim theorem (amended).
After any command trace from the initial state, every sound_id in the
instance table also has a position record; and the two key lists coincide
exactly provided every Play command in the trace opened its decoder
successfully.  (A failed Play on an id with a live instance removes the
instance but leaves its stale position record behind, which is the only
source of discrepancy.) -/
theorem c5_position_records (trace : List (StepEnv × AudioCommand)) :
    (∀ x ∈ keysOf (audio_thread_worker trace initState).sound_instances,
      x ∈ keysOf (audio_thread_worker trace initState).playing) ∧
    ((∀ e c, (e, c) ∈ trace →
        ∀ fp sid sp sv lo, c = AudioCommand.play fp sid sp sv lo →
          e.decode fp ≠ none) →
      keysOf (audio_thread_worker trace initState).sound_instances
        = keysOf (audio_thread_worker trace initState).playing) := by
  constructor
  · exact subset_worker trace initState (by intro x hx; simp [initState, keysOf] at hx)
  · intro hp
    exact keys_eq_worker trace initState hp rfl

/-- C5, witness. -/
theorem c5_position_records_witness :
    keysOf (audio_thread_worker [(envAllOk, .play "good" "s" none 1 true)]
        initState).sound_instances
      = keysOf (audio_thread_worker [(envAllOk, .play "good" "s" none 1 true)]
        initState).playing := by
  refine (c5_position_records [(envAllOk, .play "good" "s" none 1 true)]).2 ?_
  intro e c hc fp sid sp sv lo hcp
  simp only [List.mem_singleton, Prod.mk.injEq] at hc
  obtain ⟨he, hcmd⟩ := hc
  subst he
  subst hcmd
  simp only [hcp] at *
  simp [envAllOk]

/-- C4, claim theorem.
When the decoder open fails, the Play command is abandoned: the resulting
instance table is exactly the intermediate table (nothing inserted, and the
id maps to nothing), the position map is untouched (no record written), and
the worker goes on — a subsequent Play whose decoder succeeds (for any id)
installs its instance and position record normally. -/
theorem c4_abandoned_play (env : StepEnv) (fp sid : String) (sp : Option ℚ)
    (sv : ℚ) (lo : Bool) (st : EngineState) (hfail : env.decode fp = none) :
    (handle_play_command env fp sid sp sv lo st).sound_instances
      = (playRemoveExisting sid st.sound_instances).1 ∧
    getKey (handle_play_command env fp sid sp sv lo st).sound_instances sid
      = none ∧
    (handle_play_command env fp sid sp sv lo st).playing = st.playing ∧
    (∀ (env2 : StepEnv) (fp2 sid2 : String) (sp2 : Option ℚ) (sv2 : ℚ)
       (lo2 : Bool) (d2 : Option ℚ), env2.decode fp2 = some d2 →
      getKey (handle_play_command env2 fp2 sid2 sp2 sv2 lo2
          (handle_play_command env fp sid sp sv lo st)).sound_instances sid2
        ≠ none ∧
      getKey (handle_play_command env2 fp2 sid2 sp2 sv2 lo2
          (handle_play_command env fp sid sp sv lo st)).playing sid2
        = some ⟨env2.now, d2.getD 0, sp2.getD 0⟩) := by
  refine ⟨by simp only [handle_play_command, hfail], ?_, ?_, ?_⟩
  · simp only [handle_play_command, hfail]
    exact getKey_playRemoveExisting_self sid st.sound_instances
  · simp only [handle_play_command, hfail]
  · intro env2 fp2 sid2 sp2 sv2 lo2 d2 hd2
    constructor
    · simp only [handle_play_command, hd2, getKey_insertKey]
      exact Option.some_ne_none _
    · simp only [handle_play_command, hd2, getKey_insertKey]

/-- C4, witness. -/
theorem c4_abandoned_play_witness :
    getKey (handle_play_command envDecodeFail "bad" "s" none 1 true
        initState).sound_instances "s" = none ∧
    (handle_play_command envDecodeFail "bad" "s" none 1 true
        initState).playing = initState.playing ∧
    getKey (handle_play_command envAllOk "good" "t" none 1 true
        (handle_play_command envDecodeFail "bad" "s" none 1 true
          initState)).sound_instances "t" ≠ none ∧
    getKey (handle_play_command envAllOk "good" "t" none 1 true
        (handle_play_command envDecodeFail "bad" "s" none 1 true
          initState)).playing "t" = some ⟨0, 8, 0⟩ := by
  have h := c4_abandoned_play envDecodeFail "bad" "s" none 1 true initState rfl
  have h2 := h.2.2.2 envAllOk "good" "t" none 1 true (some 8) rfl
  exact ⟨h.2.1, h.2.2.1, h2.1, h2.2⟩

theorem assignDeviceVolumes_cons (n : Nat) (vv ov v : ℚ) (j : Nat)
    (rest : List ℚ) :
    assignDeviceVolumes n vv ov j (v :: rest)
      = (if j = 0 ∧ 1 < n then vv else if j = 1 ∨ n = 1 then ov else v)
        :: assignDeviceVolumes n vv ov (j + 1) rest := rfl

theorem assignDeviceVolumes_getD_head (n : Nat) (vv ov a : ℚ)
    (rest : List ℚ) (hn : 1 < n) :
    (assignDeviceVolumes n vv ov 0 (a :: rest)).getD 0 0 = vv := by
  rw [assignDeviceVolumes_cons, List.getD_cons_zero, if_pos ⟨rfl, hn⟩]

theorem assignDeviceVolumes_getD_second (n : Nat) (vv ov a b : ℚ)
    (rest : List ℚ) :
    (assignDeviceVolumes n vv ov 0 (a :: b :: rest)).getD 1 0 = ov := by
  rw [assignDeviceVolumes_cons, List.getD_cons_succ, assignDeviceVolumes_cons,
    List.getD_cons_zero, if_neg (by omega), if_pos (Or.inl rfl)]

/-- C6, counterexample.
A reachable live instance with exactly one sink but two recorded device
gains (virtual device configured yet failing, output device working): after
`update_device_volumes(0.2, 0.9)` its single sink's composed volume is `0.2`
— the virtual gain — not the output gain `0.9` the claim prescribes for a
one-sink instance. -/
theorem c6_counterexample :
    (getKey (handle_play_command envVirtualFails "f" "s" none 1 false
        initState).sound_instances "s").map
      (fun i => (i.sinks.length,
        (i.update_device_volumes (1/5) (9/10)).sinks.map Sink.volume))
      = some (1, [(1:ℚ)/5]) ∧ ((1:ℚ)/5) ≠ 9/10 := by
  have hOV : ("O" : String) ≠ "V" := by decide
  norm_num [hOV, handle_play_command, playRemoveExisting, setup_devices_for_playback,
    try_add_device_stream, create_stream_and_sink, getKey, removeKey, insertKey,
    playPrepareSinks, combine_volume, SoundInstance.update_device_volumes,
    SoundInstance.apply_volume_updates, assignDeviceVolumes, applySinkVolumes,
    Sink.new, Sink.append, Sink.set_volume, envVirtualFails, initState, max_def]

/-- C6, claim theorem (amended).
`update_device_volumes` keys its asymmetric rule on the number of *recorded
device gains*, not the number of sinks: with at least two recorded gains the
first becomes the virtual gain and the second the output gain; with exactly
one recorded gain it becomes the output gain; afterwards every sink `i` is
reapplied `combine_volume(device_volumes[i], sound_volume)`.  Scenario B
(two healthy devices at gains 0.5/0.8, sound gain 1) gives sink volumes
`[0.5, 0.8]`, and updating the virtual gain to 0.2 gives `[0.2, 0.8]`. -/
theorem c6_device_gain_rule (inst : SoundInstance) (vv ov : ℚ) :
    (2 ≤ inst.device_volumes.length →
      ((inst.update_device_volumes vv ov).device_volumes.getD 0 0 = vv ∧
       (inst.update_device_volumes vv ov).device_volumes.getD 1 0 = ov)) ∧
    (inst.device_volumes.length = 1 →
      (inst.update_device_volumes vv ov).device_volumes = [ov]) ∧
    (inst.update_device_volumes vv ov).sinks.length = inst.sinks.length ∧
    (∀ i, i < inst.sinks.length →
      ((inst.update_device_volumes vv ov).sinks.getD i Sink.new).volume =
        combine_volume
          ((inst.update_device_volumes vv ov).device_volumes.getD i 1)
          inst.sound_volume) ∧
    ((getKey (handle_play_command envScenarioB "f" "s2" none 1 false
        initState).sound_instances "s2").map (fun i => i.sinks.map Sink.volume)
      = some [(1:ℚ)/2, 4/5] ∧
     (getKey (handle_play_command envScenarioB "f" "s2" none 1 false
        initState).sound_instances "s2").map
      (fun i => (i.update_device_volumes (1/5) (4/5)).sinks.map Sink.volume)
      = some [(1:ℚ)/5, 4/5]) := by
  refine ⟨?_, ?_, ?_, ?_, ?_⟩
  · intro h2
    rcases hdv : inst.device_volumes with _ | ⟨a, tl⟩
    · rw [hdv] at h2; simp at h2
    rcases tl with _ | ⟨b, rest⟩
    · rw [hdv] at h2; simp at h2
    constructor
    · show (assignDeviceVolumes inst.device_volumes.length vv ov 0
          inst.device_volumes).getD 0 0 = vv
      rw [hdv]
      exact assignDeviceVolumes_getD_head _ vv ov a (b :: rest)
        (by simp only [List.length_cons]; omega)
    · show (assignDeviceVolumes inst.device_volumes.length vv ov 0
          inst.device_volumes).getD 1 0 = ov
      rw [hdv]
      exact assignDeviceVolumes_getD_second _ vv ov a b rest
  · intro h1
    rcases hdv : inst.device_volumes with _ | ⟨a, tl⟩
    · rw [hdv] at h1; simp at h1
    rcases tl with _ | ⟨b, rest⟩
    · show (assignDeviceVolumes inst.device_volumes.length vv ov 0
          inst.device_volumes) = [ov]
      rw [hdv]
      rw [assignDeviceVolumes_cons, if_neg (by simp)]
      simp [assignDeviceVolumes]
    · rw [hdv] at h1; simp at h1
  · show (applySinkVolumes _ _ 0 inst.sinks).length = inst.sinks.length
    exact applySinkVolumes_length _ _ 0 inst.sinks
  · intro i hi
    show ((applySinkVolumes _ inst.sound_volume 0 inst.sinks).getD i
        Sink.new).volume = _
    rw [applySinkVolumes_getD _ inst.sound_volume inst.sinks 0 i hi]
    simp [Sink.volume_set_volume, SoundInstance.update_device_volumes,
      SoundInstance.apply_volume_updates]
  · have hOV : ("O" : String) ≠ "V" := by decide
    norm_num [hOV, handle_play_command, playRemoveExisting,
      setup_devices_for_playback, try_add_device_stream, create_stream_and_sink,
      getKey, removeKey, insertKey, playPrepareSinks, combine_volume,
      SoundInstance.update_device_volumes, SoundInstance.apply_volume_updates,
      assignDeviceVolumes, applySinkVolumes, Sink.new, Sink.append,
      Sink.set_volume, envScenarioB, initState, max_def]

/-- C6, witness. -/
theorem c6_device_gain_rule_witness :
    ((⟨[Sink.new, Sink.new], [1/2, 4/5], 1⟩ :
        SoundInstance).update_device_volumes (1/5) (4/5)).device_volumes.getD 0 0
      = (1:ℚ)/5 ∧
    ((⟨[Sink.new, Sink.new], [1/2, 4/5], 1⟩ :
        SoundInstance).update_device_volumes (1/5) (4/5)).device_volumes.getD 1 0
      = (4:ℚ)/5 := by
  have h := (c6_device_gain_rule ⟨[Sink.new, Sink.new], [1/2, 4/5], 1⟩
    (1/5) (4/5)).1 (by norm_num)
  exact ⟨h.1, h.2⟩

/-- C7, counterexample.
A record produced by a Play (start offset 2 s of a file with 8 s of
remaining audio) is still present, yet once the elapsed wall-clock time
(15 s) reaches the recorded duration `get_playback_position` returns `none`,
not `offset + elapsed`: "returns none only when no record exists" is false. -/
theorem c7_counterexample :
    getKey (audio_thread_worker [(envAllOk, .play "f" "s1" (some 2) 1 true)]
        initState).playing "s1" = some ⟨0, 8, 2⟩ ∧
    get_playback_position (audio_thread_worker
        [(envAllOk, .play "f" "s1" (some 2) 1 true)] initState).playing 15 "s1"
      = none := by
  norm_num [audio_thread_worker, applyDrain, process_command, handle_play_command,
    playRemoveExisting, setup_devices_for_playback, try_add_device_stream,
    create_stream_and_sink, cleanup_finished_sounds, getKey, removeKey, insertKey,
    keysOf, playPrepareSinks, combine_volume, SoundInstance.is_finished,
    Sink.new, Sink.append, Sink.set_volume, envAllOk, initState, List.filter,
    max_def, get_playback_position]

/-- C7, claim theorem (amended).
For a sound with a position record, `get_playback_position` returns
`start_offset + elapsed` only while `elapsed < duration` or the recorded
duration is 0; once `elapsed ≥ duration ≠ 0` it returns `none` even though
the record exists, and it returns `none` when no record exists.  Scenario A
(10 s file played from offset 2, so 8 s of remaining audio) still holds:
the position reads ≈2.0 immediately and ≈5.0 after 3.0 s. -/
theorem c7_playback_position (playing : List (String × PosRecord)) (now : ℚ)
    (sid : String) :
    (∀ r, getKey playing sid = some r →
      ((now - r.start_time < r.duration ∨ r.duration = 0) →
        get_playback_position playing now sid
          = some (r.start_position + (now - r.start_time))) ∧
      (r.duration ≤ now - r.start_time → r.duration ≠ 0 →
        get_playback_position playing now sid = none)) ∧
    (getKey playing sid = none →
      get_playback_position playing now sid = none) ∧
    (get_playback_position (audio_thread_worker
        [(envAllOk, .play "f" "s1" (some 2) 1 true)] initState).playing 0 "s1"
      = some 2 ∧
     get_playback_position (audio_thread_worker
        [(envAllOk, .play "f" "s1" (some 2) 1 true)] initState).playing 3 "s1"
      = some 5) := by
  refine ⟨?_, ?_, ?_⟩
  · intro r hr
    constructor
    · intro hlt
      simp only [get_playback_position, hr]
      rw [if_pos hlt]
    · intro hge hne
      simp only [get_playback_position, hr]
      rw [if_neg (by push_neg; exact ⟨hge, hne⟩)]
  · intro hr
    simp only [get_playback_position, hr]
  · norm_num [audio_thread_worker, applyDrain, process_command,
      handle_play_command, playRemoveExisting, setup_devices_for_playback,
      try_add_device_stream, create_stream_and_sink, cleanup_finished_sounds,
      getKey, removeKey, insertKey, keysOf, playPrepareSinks, combine_volume,
      SoundInstance.is_finished, Sink.new, Sink.append, Sink.set_volume,
      envAllOk, initState, List.filter, max_def, get_playback_position]

/-- C7, witness. -/
theorem c7_playback_position_witness :
    get_playback_position [("s1", (⟨0, 8, 2⟩ : PosRecord))] 3 "s1"
      = some 5 := by
  have h := ((c7_playback_position [("s1", (⟨0, 8, 2⟩ : PosRecord))] 3 "s1").1
    ⟨0, 8, 2⟩ (by simp [getKey])).1 (by norm_num)
  norm_num at h
  exact h

/-- C3, counterexample.
Virtual device configured (gain 0.5) but its stream fails; no output device;
the default works.  The fallback sink is created, but the gain applied to it
is `combine_volume(0.5, 1.0) = 0.5` — the failed virtual device's gain, not
`1.0`: the pushed `1.0` sits at index 1 of the gain list while the lone sink
reads index 0. -/
theorem c3_counterexample :
    (setup_devices_for_playback envOnlyFallback.manager
        envOnlyFallback.stream_ok "s" false).1.length = 1 ∧
    (getKey (handle_play_command envOnlyFallback "f" "s" none 1 false
        initState).sound_instances "s").map (fun i => i.sinks.map Sink.volume)
      = some [(1:ℚ)/2] ∧ ((1:ℚ)/2) ≠ 1 := by
  have hNV : (none : Option String) ≠ some "V" := by decide
  norm_num [hNV, handle_play_command, playRemoveExisting,
    setup_devices_for_playback, try_add_device_stream, create_stream_and_sink,
    getKey, removeKey, insertKey, playPrepareSinks, combine_volume, Sink.new,
    Sink.append, Sink.set_volume, envOnlyFallback, initState, max_def]

/-- C3, claim theorem (amended).
On a non-local Play where no configured device yields a working sink and the
default stream works, exactly one last-resort sink is created against the
system default device and `1.0` is appended to the device-gain list; that
appended gain is the one the sink actually reads only when no device was
configured (otherwise the gain list is misaligned and the sink reads the
first configured device's gain).  Unconditionally: if any backend (either
configured device, or the default) can be constructed the sink list is
nonempty, and whenever at least one configured device works the sink count
equals the number of working configured devices — one device's failure never
aborts the other's sink. -/
theorem c3_fallback_sink (m : AudioManagerState) (ok : Option String → Bool)
    (sid : String) :
    ((∀ d, m.virtual_device = some d → ok (some d) = false) →
     (∀ d, m.output_device = some d → ok (some d) = false) →
     ok none = true →
     (setup_devices_for_playback m ok sid false).1 = [Sink.new] ∧
     (setup_devices_for_playback m ok sid false).2
       = configured_device_volumes m ++ [1] ∧
     (m.virtual_device = none → m.output_device = none →
       (setup_devices_for_playback m ok sid false).2 = [1])) ∧
    (((∃ d, m.virtual_device = some d ∧ ok (some d) = true) ∨
      (∃ d, m.output_device = some d ∧ ok (some d) = true) ∨
      ok none = true) →
     (setup_devices_for_playback m ok sid false).1 ≠ []) ∧
    (0 < produced_sink_count m ok →
     (setup_devices_for_playback m ok sid false).1.length
       = produced_sink_count m ok) := by
  refine ⟨?_, ?_, ?_⟩
  · intro hvf hof hdef
    rcases hv : m.virtual_device with _ | dv <;>
      rcases ho : m.output_device with _ | dO
    · simp [setup_devices_for_playback, try_add_device_stream,
        create_stream_and_sink, hdef, configured_device_volumes, hv, ho]
    · have h2 := hof dO ho
      simp [setup_devices_for_playback, try_add_device_stream,
        create_stream_and_sink, hdef, h2, configured_device_volumes, hv, ho]
    · have h1 := hvf dv hv
      simp [setup_devices_for_playback, try_add_device_stream,
        create_stream_and_sink, hdef, h1, configured_device_volumes, hv, ho]
    · have h1 := hvf dv hv
      have h2 := hof dO ho
      simp [setup_devices_for_playback, try_add_device_stream,
        create_stream_and_sink, hdef, h1, h2, configured_device_volumes, hv, ho]
  · intro hbackend
    rcases hv : m.virtual_device with _ | dv <;>
      rcases ho : m.output_device with _ | dO
    · have hd : ok none = true := by
        rcases hbackend with ⟨d, hde, _⟩ | ⟨d, hde, _⟩ | h
        · rw [hv] at hde; simp at hde
        · rw [ho] at hde; simp at hde
        · exact h
      simp [setup_devices_for_playback, try_add_device_stream,
        create_stream_and_sink, hv, ho, hd]
    · by_cases h2 : ok (some dO) = true
      · simp [setup_devices_for_playback, try_add_device_stream,
          create_stream_and_sink, hv, ho, h2]
      · have hd : ok none = true := by
          rcases hbackend with ⟨d, hde, _⟩ | ⟨d, hde, hok⟩ | h
          · rw [hv] at hde; simp at hde
          · rw [ho] at hde
            injection hde with he
            subst he
            exact absurd hok h2
          · exact h
        simp [setup_devices_for_playback, try_add_device_stream,
          create_stream_and_sink, hv, ho, h2, hd]
    · by_cases h1 : ok (some dv) = true
      · simp [setup_devices_for_playback, try_add_device_stream,
          create_stream_and_sink, hv, ho, h1]
      · have hd : ok none = true := by
          rcases hbackend with ⟨d, hde, hok⟩ | ⟨d, hde, _⟩ | h
          · rw [hv] at hde
            injection hde with he
            subst he
            exact absurd hok h1
          · rw [ho] at hde; simp at hde
          · exact h
        simp [setup_devices_for_playback, try_add_device_stream,
          create_stream_and_sink, hv, ho, h1, hd]
    · by_cases h1 : ok (some dv) = true <;> by_cases h2 : ok (some dO) = true
      · simp [setup_devices_for_playback, try_add_device_stream,
          create_stream_and_sink, hv, ho, h1, h2]
      · simp [setup_devices_for_playback, try_add_device_stream,
          create_stream_and_sink, hv, ho, h1, h2]
      · simp [setup_devices_for_playback, try_add_device_stream,
          create_stream_and_sink, hv, ho, h1, h2]
      · have hd : ok none = true := by
          rcases hbackend with ⟨d, hde, hok⟩ | ⟨d, hde, hok⟩ | h
          · rw [hv] at hde
            injection hde with he
            subst he
            exact absurd hok h1
          · rw [ho] at hde
            injection hde with he
            subst he
            exact absurd hok h2
          · exact h
        simp [setup_devices_for_playback, try_add_device_stream,
          create_stream_and_sink, hv, ho, h1, h2, hd]
  · intro hcount
    rcases hv : m.virtual_device with _ | dv <;>
      rcases ho : m.output_device with _ | dO <;>
      simp only [produced_sink_count, hv, ho] at hcount ⊢
    · omega
    · by_cases h2 : ok (some dO) = true <;>
        simp_all [setup_devices_for_playback, try_add_device_stream,
          create_stream_and_sink]
    · by_cases h1 : ok (some dv) = true <;>
        simp_all [setup_devices_for_playback, try_add_device_stream,
          create_stream_and_sink]
    · by_cases h1 : ok (some dv) = true <;>
        by_cases h2 : ok (some dO) = true <;>
        simp_all [setup_devices_for_playback, try_add_device_stream,
          create_stream_and_sink]

/-- C3, witness. -/
theorem c3_fallback_sink_witness :
    (setup_devices_for_playback envOnlyFallback.manager
        envOnlyFallback.stream_ok "s" false).1 = [Sink.new] ∧
    (setup_devices_for_playback envOnlyFallback.manager
        envOnlyFallback.stream_ok "s" false).2
      = configured_device_volumes envOnlyFallback.manager ++ [1] := by
  have h := (c3_fallback_sink envOnlyFallback.manager envOnlyFallback.stream_ok
    "s").1
    (by intro d hd; simp [envOnlyFallback] at hd; subst hd; decide)
    (by intro d hd; simp [envOnlyFallback] at hd)
    (by decide)
  exact ⟨h.1, h.2.1⟩

/-- C10, witness. -/
theorem c10_sound_gain_unclamped_witness :
    (getKey (handle_play_command envAllOk "f" "s" none 2 true
        initState).sound_instances "s").map (fun i => i.sinks.map Sink.volume)
      = some [(2 : ℚ)] ∧ (1 : ℚ) < 2 :=
  ⟨c10_sound_gain_unclamped.2.2.1 envAllOk "f" "s" none 2 initState
      (by norm_num) rfl (by simp [envAllOk]),
   by norm_num⟩

end Midah
